import Mathlib

/-!
Shallow embedding of the touka-assist survey record pipeline.

The definitions below are translated from the JavaScript sources:
* `QUESTIONS`, `handleInputChange`, `clearForm`, `addResult`, `onDeleteResult`,
  `runOCR` (structured branch) and `downloadCSV` from `src/App.jsx`;
* the JSON-extraction tail of `runGeminiOCRStructured` from the Gemini OCR
  utility module;
* `changePage` from `src/components/ImagePreview.jsx`;
* the per-question rendering of `src/components/QuestionForm.jsx`.

JavaScript objects used as string-keyed maps (the form state, the parsed
JSON response) are embedded as insertion-ordered association lists with
unique keys; the spread copy `\x7b ...formData \x7d` is value semantics here.
-/

namespace ToukaAssist

/-- The double-quote character. -/
def quoteC : Char := Char.ofNat 34

/-- The opening-brace character. -/
def lbraceC : Char := Char.ofNat 123

/-- The closing-brace character. -/
def rbraceC : Char := Char.ofNat 125

/-- One survey question definition, as in the `QUESTIONS` array of
`App.jsx` (fields `id`, `label`, `type`, `options`, `placeholder`). -/
structure Question where
  id : String
  label : String
  type : String
  options : List String
  placeholder : Option String
deriving DecidableEq, Repr

/-- The fixed field catalog `QUESTIONS` from `App.jsx`. -/
def QUESTIONS : List Question := [
  ⟨"patient_id", "患者さんID", "text", [], none⟩,
  ⟨"name_sei", "名前（カタカナ）氏", "text", [], none⟩,
  ⟨"name_mei", "名前（カタカナ）名", "text", [], none⟩,
  ⟨"birthday", "生年月日", "text", [], some "例: 昭和35年12月18日"⟩,
  ⟨"gender", "性別", "select", ["", "男", "女", "回答しない"], none⟩,
  ⟨"blood_type", "血液型", "select", ["", "A型", "B型", "O型", "AB型", "わからない"], none⟩,
  ⟨"height", "身長（cm）", "number", [], none⟩,
  ⟨"weight", "体重（kg）", "number", [], none⟩,
  ⟨"diabetes", "糖尿病", "select", ["", "なし", "5年未満", "5〜10年前", "10年以上前", "わからない"], none⟩,
  ⟨"dyslipidemia", "脂質異常症", "select", ["", "なし", "5年未満", "5〜10年前", "10年以上前", "わからない"], none⟩,
  ⟨"sibling_diabetes", "兄弟に糖尿病歴", "select", ["", "はい", "いいえ", "わからない"], none⟩,
  ⟨"parent_diabetes", "両親に糖尿病歴", "select", ["", "はい", "いいえ", "わからない"], none⟩,
  ⟨"no_exercise", "ほとんど運動しない", "select", ["", "はい", "いいえ"], none⟩,
  ⟨"sweets_frequency", "お菓子・スイーツ頻度", "select", ["", "ほぼ毎日", "週2-3回", "週1回以下または食べない"], none⟩,
  ⟨"drink_type", "よく飲む飲み物", "select", ["", "有糖飲料", "無糖飲料"], none⟩,
  ⟨"alcohol", "飲酒習慣", "select", ["", "飲む", "ほとんど飲まない"], none⟩,
  ⟨"alcohol_detail", "飲酒詳細", "text", [], some "例: ビールを週5回、350ml缶を3本"⟩,
  ⟨"tooth_extraction", "歯の抜去位置", "text", [], none⟩,
  ⟨"comment", "その他コメント", "textarea", [], none⟩]

/-- Form state: a JavaScript object mapping field id to string value,
embedded as an insertion-ordered association list with unique keys. -/
abbrev FormData := List (String × String)

/-- Property access `d[k]`: the value at key `k`, `none` when absent. -/
def getField : FormData → String → Option String
  | [], _ => none
  | (k1, v1) :: rest, k => if k1 = k then some v1 else getField rest k

/-- Defaulted access `d[k] || ''` as used by `downloadCSV` and
`QuestionForm` (`undefined` and the empty string both yield `""`). -/
def getFieldD (d : FormData) (k : String) : String :=
  (getField d k).getD ""

/-- The spread update `\x7b ...prev, [id]: value \x7d` of `handleInputChange`:
overwrite the entry at `id` in place, or append it when absent. -/
def setField : FormData → String → String → FormData
  | [], k, v => [(k, v)]
  | (k1, v1) :: rest, k, v =>
    if k1 = k then (k, v) :: rest else (k1, v1) :: setField rest k v

/-- One committed survey record (`addResult` object literal:
`id`, `timestamp`, `data`). -/
structure SurveyRecord where
  id : Nat
  timestamp : String
  data : FormData
deriving DecidableEq, Repr

/-- The `App` component state relevant to the survey record pipeline. -/
structure AppState where
  formData : FormData
  ocrText : String
  results : List SurveyRecord
  image : Option String
  imagePreview : Option String
  fileType : String
deriving Repr

/-- `handleInputChange(id, value)` from `App.jsx`. -/
def handleInputChange (id value : String) (s : AppState) : AppState :=
  { s with formData := setField s.formData id value }

/-- The state update performed by `clearForm` once the user confirms. -/
def clearForm (s : AppState) : AppState :=
  { s with formData := [], ocrText := "", image := none,
           imagePreview := none, fileType := "image" }

/-- `addResult` from `App.jsx`: the fresh id (`Date.now()`) and the
localized timestamp are environment inputs, taken as parameters; the
record snapshots `\x7b ...formData \x7d` and is appended at the end. -/
def addResult (newId : Nat) (timestamp : String) (s : AppState) : AppState :=
  { s with results := s.results ++ [⟨newId, timestamp, s.formData⟩] }

/-- `onDeleteResult(id)` from `App.jsx`:
`setResults(prev => prev.filter(r => r.id !== id))`. -/
def onDeleteResult (rid : Nat) (s : AppState) : AppState :=
  { s with results := s.results.filter (fun r => r.id != rid) }

/-- A light rendering of `JSON.stringify(structuredData, null, 2)`,
used only inside the success message text. -/
def stringifyFormData (d : FormData) : String :=
  "\x7b\n" ++
    String.intercalate ",\n"
      (d.map (fun p => "  \"" ++ p.1 ++ "\": \"" ++ p.2 ++ "\"")) ++
  "\n\x7d"

/-- The success message written by the structured branch of `runOCR`. -/
def ocrSuccessText (d : FormData) : String :=
  "✅ 読み取り完了！フォームに自動入力しました。\n\n【読み取り結果】\n" ++
    stringifyFormData d

/-- The soft-failure warning written by the structured branch of `runOCR`. -/
def structFailText : String :=
  "⚠️ 構造化データの抽出に失敗しました。テキストモードで再試行してください。"

/-- The structured branch of `runOCR` in `App.jsx`, applied to the value
returned by `runGeminiOCRStructured`: on a non-null object the form state
is replaced by it wholesale; on null only the warning text is set. -/
def applyStructuredResult (result : Option FormData) (s : AppState) : AppState :=
  match result with
  | some d => { s with formData := d, ocrText := ocrSuccessText d }
  | none => { s with ocrText := structFailText }

/-- `headers` of `downloadCSV`: `QUESTIONS.map(q => q.label)`,
generalized over the field list. -/
def headers (fields : List Question) : List String :=
  fields.map (fun q => q.label)

/-- The global replace `value.replace(/"/g, '""')`: every double quote
becomes two double quotes. -/
def replaceQuotes (value : String) : String :=
  String.mk (value.toList.foldr
    (fun c acc => if c = quoteC then quoteC :: quoteC :: acc else c :: acc) [])

/-- The JavaScript test `value.includes(c)` for a one-character needle,
over the character list of the string. -/
def strIncludes (value : String) (c : Char) : Bool :=
  value.toList.contains c

/-- One CSV cell of `downloadCSV`: wrap in quotes with internal quotes
doubled when the value contains a comma or a newline, else verbatim. -/
def escapeCsvCell (value : String) : String :=
  if strIncludes value ',' || strIncludes value '\n' then
    "\"" ++ replaceQuotes value ++ "\""
  else value

/-- The cells of one data row of `downloadCSV`:
`QUESTIONS.map(q => ...escaped (r.data[q.id] || '')...)`. -/
def recordCells (fields : List Question) (r : SurveyRecord) : List String :=
  fields.map (fun q => escapeCsvCell (getFieldD r.data q.id))

/-- `csvContent` of `downloadCSV`: the header row followed by one row per
record in store order, rows joined by `\n` and cells by `,`. -/
def csvContent (fields : List Question) (results : List SurveyRecord) : String :=
  String.intercalate "\n"
    (String.intercalate "," (headers fields) ::
      results.map (fun r => String.intercalate "," (recordCells fields r)))

/-- The visible (label, value) pairs produced by `QuestionForm`: one entry
per catalog question, reading `formData[question.id] || ''`. -/
def renderForm (questions : List Question) (d : FormData) : List (String × String) :=
  questions.map (fun q => (q.label, getFieldD d q.id))

/-- The `ImagePreview` component state used by `changePage`. -/
structure PreviewState where
  currentPage : Int
  totalPages : Int
  pdfFile : Option String
  bitmap : Option String
deriving DecidableEq, Repr

/-- `changePage(newPage)` from `ImagePreview.jsx`: guarded no-op when the
page is out of `[1, totalPages]` or no PDF is loaded; otherwise
re-rasterize (`render` stands for `pdfToImage` at the fixed 2.0 zoom)
and update the current page and bitmap. -/
def changePage (render : Int → String) (newPage : Int) (s : PreviewState) : PreviewState :=
  if newPage < 1 ∨ newPage > s.totalPages ∨ s.pdfFile = none then s
  else { s with currentPage := newPage, bitmap := some (render newPage) }

/-- JSON values, as produced by `JSON.parse`; a numeric literal is kept as
its lexeme so no floating-point semantics enters the embedding. -/
inductive Json where
  | null
  | bool (b : Bool)
  | num (lexeme : String)
  | str (s : String)
  | arr (elems : List Json)
  | obj (members : List (String × Json))
deriving Repr

/-- JSON whitespace. -/
def isJsonWs (c : Char) : Bool :=
  c = ' ' || c = '\n' || c = '\t' || c = '\r'

/-- Drop leading JSON whitespace. -/
def skipWs (cs : List Char) : List Char :=
  cs.dropWhile isJsonWs

/-- The value of one hexadecimal digit. -/
def hexVal (c : Char) : Option Nat :=
  if '0' ≤ c ∧ c ≤ '9' then some (c.toNat - '0'.toNat)
  else if 'a' ≤ c ∧ c ≤ 'f' then some (c.toNat - 'a'.toNat + 10)
  else if 'A' ≤ c ∧ c ≤ 'F' then some (c.toNat - 'A'.toNat + 10)
  else none

/-- Parse the body of a JSON string literal (after the opening quote),
returning the decoded string and the remaining input. -/
def parseStringBody : Nat → List Char → List Char → Option (String × List Char)
  | 0, _, _ => none
  | _ + 1, [], _ => none
  | fuel + 1, c :: rest, acc =>
    if c = quoteC then some (String.mk acc.reverse, rest)
    else if c = '\\' then
      match rest with
      | [] => none
      | e :: rest2 =>
        if e = quoteC then parseStringBody fuel rest2 (quoteC :: acc)
        else if e = '\\' then parseStringBody fuel rest2 ('\\' :: acc)
        else if e = '/' then parseStringBody fuel rest2 ('/' :: acc)
        else if e = 'n' then parseStringBody fuel rest2 ('\n' :: acc)
        else if e = 't' then parseStringBody fuel rest2 ('\t' :: acc)
        else if e = 'r' then parseStringBody fuel rest2 ('\r' :: acc)
        else if e = 'b' then parseStringBody fuel rest2 (Char.ofNat 8 :: acc)
        else if e = 'f' then parseStringBody fuel rest2 (Char.ofNat 12 :: acc)
        else if e = 'u' then
          match rest2 with
          | h1 :: h2 :: h3 :: h4 :: rest3 =>
            match hexVal h1, hexVal h2, hexVal h3, hexVal h4 with
            | some a, some b, some c3, some d4 =>
              parseStringBody fuel rest3
                (Char.ofNat (((a * 16 + b) * 16 + c3) * 16 + d4) :: acc)
            | _, _, _, _ => none
          | _ => none
        else none
    else parseStringBody fuel rest (c :: acc)

/-- Lex a JSON number: `-? (0 | [1-9][0-9]*) (. [0-9]+)? ([eE][+-]? [0-9]+)?`. -/
def lexNumber (cs : List Char) : Option (String × List Char) :=
  let (sign, cs1) :=
    match cs with
    | '-' :: rest => (['-'], rest)
    | _ => (([] : List Char), cs)
  match cs1 with
  | [] => none
  | d :: rest1 =>
    if ¬ d.isDigit then none
    else
      let (intPart, cs2) :=
        if d = '0' then ([d], rest1)
        else (d :: rest1.takeWhile Char.isDigit, rest1.dropWhile Char.isDigit)
      let (fracPart, cs3) :=
        match cs2 with
        | '.' :: f :: rest2 =>
          if f.isDigit then
            ('.' :: f :: rest2.takeWhile Char.isDigit, rest2.dropWhile Char.isDigit)
          else (([] : List Char), cs2)
        | _ => (([] : List Char), cs2)
      if fracPart.isEmpty && (match cs2 with | '.' :: _ => true | _ => false) then none
      else
        let expRes : Option (List Char × List Char) :=
          match cs3 with
          | e :: rest3 =>
            if e = 'e' ∨ e = 'E' then
              let (sgn, rest4) :=
                match rest3 with
                | '+' :: r => (['+'], r)
                | '-' :: r => (['-'], r)
                | _ => (([] : List Char), rest3)
              match rest4 with
              | x :: _ =>
                if x.isDigit then
                  some (e :: sgn ++ rest4.takeWhile Char.isDigit,
                        rest4.dropWhile Char.isDigit)
                else none
              | [] => none
            else some ([], cs3)
          | [] => some ([], cs3)
        match expRes with
        | none => none
        | some (expPart, cs4) =>
          some (String.mk (sign ++ intPart ++ fracPart ++ expPart), cs4)

/-- The parser jobs: one JSON value, the inside of an object after its
opening brace, the members of an object, the inside of an array after its
opening bracket, and the elements of an array. -/
inductive PJob where
  | value
  | objRest
  | members (acc : List (String × Json))
  | arrRest
  | elements (acc : List Json)

/-- Recursive-descent JSON parsing; the fuel strictly decreases at every
recursive call, keeping the recursion structural. -/
def parseJ : Nat → PJob → List Char → Option (Json × List Char)
  | 0, _, _ => none
  | fuel + 1, PJob.value, cs =>
    match skipWs cs with
    | [] => none
    | c :: rest =>
      if c = quoteC then
        (parseStringBody (fuel + 1) rest []).map (fun p => (Json.str p.1, p.2))
      else if c = lbraceC then parseJ fuel PJob.objRest rest
      else if c = '[' then parseJ fuel PJob.arrRest rest
      else if c = 't' then
        match rest with
        | 'r' :: 'u' :: 'e' :: r1 => some (Json.bool true, r1)
        | _ => none
      else if c = 'f' then
        match rest with
        | 'a' :: 'l' :: 's' :: 'e' :: r1 => some (Json.bool false, r1)
        | _ => none
      else if c = 'n' then
        match rest with
        | 'u' :: 'l' :: 'l' :: r1 => some (Json.null, r1)
        | _ => none
      else
        (lexNumber (c :: rest)).map (fun p => (Json.num p.1, p.2))
  | fuel + 1, PJob.objRest, cs =>
    match skipWs cs with
    | [] => none
    | c :: rest =>
      if c = rbraceC then some (Json.obj [], rest)
      else parseJ fuel (PJob.members []) (c :: rest)
  | fuel + 1, PJob.members acc, cs =>
    match skipWs cs with
    | [] => none
    | c :: rest =>
      if c = quoteC then
        match parseStringBody (fuel + 1) rest [] with
        | none => none
        | some (key, r1) =>
          match skipWs r1 with
          | ':' :: r2 =>
            match parseJ fuel PJob.value r2 with
            | none => none
            | some (v, r3) =>
              match skipWs r3 with
              | ',' :: r4 => parseJ fuel (PJob.members ((key, v) :: acc)) r4
              | d :: r4 =>
                if d = rbraceC then
                  some (Json.obj (((key, v) :: acc).reverse), r4)
                else none
              | [] => none
          | _ => none
      else none
  | fuel + 1, PJob.arrRest, cs =>
    match skipWs cs with
    | [] => none
    | c :: rest =>
      if c = ']' then some (Json.arr [], rest)
      else parseJ fuel (PJob.elements []) (c :: rest)
  | fuel + 1, PJob.elements acc, cs =>
    match parseJ fuel PJob.value cs with
    | none => none
    | some (v, r1) =>
      match skipWs r1 with
      | ',' :: r2 => parseJ fuel (PJob.elements (v :: acc)) r2
      | ']' :: r2 => some (Json.arr ((v :: acc).reverse), r2)
      | _ => none

/-- `JSON.parse(s)`: parse one value and require only whitespace after it;
any failure (an exception in JavaScript) is `none`. -/
def jsonParse (s : String) : Option Json :=
  match parseJ (4 * (s.length + 1)) PJob.value s.toList with
  | some (v, rest) => if skipWs rest = [] then some v else none
  | none => none

/-- Index of the first occurrence of `c`, or `none`. -/
def firstIdx (c : Char) : List Char → Option Nat
  | [] => none
  | x :: xs => if x = c then some 0 else (firstIdx c xs).map (· + 1)

/-- Index of the last occurrence of `c`, or `none`. -/
def lastIdx (c : Char) : List Char → Option Nat
  | [] => none
  | x :: xs =>
    match lastIdx c xs with
    | some j => some (j + 1)
    | none => if x = c then some 0 else none

/-- The JavaScript match `text.match(/\x7b[\s\S]*\x7d/)` of
`runGeminiOCRStructured`: the leftmost match starts at the first opening
brace and, the quantifier being greedy, extends to the last closing brace
of the whole text; `none` when the first opening brace does not precede
the last closing brace. -/
def extractJsonCandidate (text : String) : Option String :=
  let cs := text.toList
  match firstIdx lbraceC cs, lastIdx rbraceC cs with
  | some i, some j =>
    if i < j then some (String.mk ((cs.drop i).take (j - i + 1))) else none
  | _, _ => none

/-- The tail of `runGeminiOCRStructured` applied to the response text:
run the regex match, `JSON.parse` the matched substring, and return
`none` on a missing match or a parse error. -/
def structuredFromText (text : String) : Option Json :=
  (extractJsonCandidate text).bind jsonParse

/-- Scan for the end of a balanced brace group; the input starts at an
opening brace and `depth` is the number of currently open braces. -/
def balancedScan : List Char → Nat → List Char → Option (List Char)
  | [], _, _ => none
  | c :: rest, depth, acc =>
    if c = lbraceC then balancedScan rest (depth + 1) (c :: acc)
    else if c = rbraceC then
      if depth = 1 then some (c :: acc).reverse
      else if depth = 0 then none
      else balancedScan rest (depth - 1) (c :: acc)
    else balancedScan rest depth (c :: acc)

/-- Modelled from the spec: "response text is scanned for the first
balanced `\x7b...\x7d` substring" — the substring starting at the first
opening brace and ending at the brace that closes it. -/
def firstBalancedBraces (text : String) : Option String :=
  match text.toList.dropWhile (· ≠ lbraceC) with
  | [] => none
  | rest => (balancedScan rest 0 []).map String.mk

/-- Modelled from the spec: the structured result as the claim describes
it — parse the first balanced brace substring as JSON, `none` when no
such substring exists or parsing fails. -/
def claimedStructured (text : String) : Option Json :=
  (firstBalancedBraces text).bind jsonParse

/-! Helper lemmas shared by the claim theorems. -/

theorem getField_setField_self (d : FormData) (k v : String) :
    getField (setField d k v) k = some v := by
  induction d with
  | nil => simp [setField, getField]
  | cons p rest ih =>
    obtain ⟨k1, v1⟩ := p
    by_cases h : k1 = k
    · simp [setField, getField, h]
    · simp [setField, getField, h, ih]

theorem getField_setField_ne (d : FormData) (k v k2 : String) (h : k2 ≠ k) :
    getField (setField d k v) k2 = getField d k2 := by
  induction d with
  | nil => simp [setField, getField, Ne.symm h]
  | cons p rest ih =>
    obtain ⟨k1, v1⟩ := p
    by_cases h1 : k1 = k
    · subst h1
      simp [setField, getField, Ne.symm h]
    · by_cases h2 : k1 = k2
      · subst h2
        simp [setField, getField, h1]
      · simp [setField, getField, h1, h2, ih]

theorem firstIdx_eq_some {c : Char} :
    ∀ {cs : List Char} {i : Nat}, firstIdx c cs = some i →
      cs[i]? = some c ∧ ∀ k : Nat, k < i → cs[k]? ≠ some c := by
  intro cs
  induction cs with
  | nil => intro i h; simp [firstIdx] at h
  | cons x xs ih =>
    intro i h
    by_cases hx : x = c
    · simp [firstIdx, hx] at h
      subst h
      exact ⟨by simp [hx], fun k hk => absurd hk (by omega)⟩
    · simp [firstIdx, hx] at h
      obtain ⟨i1, hi1, rfl⟩ := h
      obtain ⟨h1, h2⟩ := ih hi1
      refine ⟨by simpa using h1, fun k hk => ?_⟩
      cases k with
      | zero => simp [hx]
      | succ k1 =>
        rw [List.getElem?_cons_succ]
        exact h2 k1 (by omega)

theorem firstIdx_eq_none {c : Char} :
    ∀ {cs : List Char}, firstIdx c cs = none → ∀ k : Nat, cs[k]? ≠ some c := by
  intro cs
  induction cs with
  | nil => intro _ k; simp
  | cons x xs ih =>
    intro h k
    by_cases hx : x = c
    · simp [firstIdx, hx] at h
    · simp [firstIdx, hx] at h
      cases k with
      | zero => simp [hx]
      | succ k1 =>
        rw [List.getElem?_cons_succ]
        exact ih h k1

theorem lastIdx_eq_none {c : Char} :
    ∀ {cs : List Char}, lastIdx c cs = none → ∀ k : Nat, cs[k]? ≠ some c := by
  intro cs
  induction cs with
  | nil => intro _ k; simp
  | cons x xs ih =>
    intro h k
    rw [lastIdx] at h
    cases hm : lastIdx c xs with
    | some j => rw [hm] at h; simp at h
    | none =>
      rw [hm] at h
      by_cases hx : x = c
      · simp [hx] at h
      · cases k with
        | zero => simp [hx]
        | succ k1 =>
          rw [List.getElem?_cons_succ]
          exact ih hm k1

theorem lastIdx_eq_some {c : Char} :
    ∀ {cs : List Char} {j : Nat}, lastIdx c cs = some j →
      cs[j]? = some c ∧ ∀ k : Nat, j < k → cs[k]? ≠ some c := by
  intro cs
  induction cs with
  | nil => intro j h; simp [lastIdx] at h
  | cons x xs ih =>
    intro j h
    rw [lastIdx] at h
    cases hm : lastIdx c xs with
    | some j1 =>
      rw [hm] at h
      cases h
      obtain ⟨h1, h2⟩ := ih hm
      refine ⟨by simpa using h1, fun k hk => ?_⟩
      cases k with
      | zero => omega
      | succ k1 =>
        rw [List.getElem?_cons_succ]
        exact h2 k1 (by omega)
    | none =>
      rw [hm] at h
      by_cases hx : x = c
      · rw [if_pos hx] at h
        cases h
        refine ⟨by simp [hx], fun k hk => ?_⟩
        cases k with
        | zero => omega
        | succ k1 =>
          rw [List.getElem?_cons_succ]
          exact lastIdx_eq_none hm k1
      · rw [if_neg hx] at h
        exact absurd h (by simp)

/-! Claim theorems. -/

/-- C1: in `downloadCSV`, a cell value is wrapped in double quotes with
each internal double quote doubled when it contains a comma or a newline,
and is emitted unquoted and verbatim otherwise, even when it contains a
bare double quote; the third conjunct characterises the doubling of the
global quote replacement character by character. -/
theorem downloadCSV_cell_quoting (value : String) :
    ((strIncludes value ',' = true ∨ strIncludes value '\n' = true) →
      escapeCsvCell value = "\"" ++ replaceQuotes value ++ "\"") ∧
    ((strIncludes value ',' = false ∧ strIncludes value '\n' = false) →
      escapeCsvCell value = value) ∧
    (∀ (c : Char) (rest : List Char),
      replaceQuotes (String.mk (c :: rest)) =
        (if c = quoteC then String.mk [quoteC, quoteC] else String.mk [c]) ++
          replaceQuotes (String.mk rest)) := by
  refine ⟨fun h => ?_, fun h => ?_, fun c rest => ?_⟩
  · have hc : (strIncludes value ',' || strIncludes value '\n') = true := by
      rcases h with h | h <;> simp [h]
    simp [escapeCsvCell, hc]
  · simp [escapeCsvCell, h.1, h.2]
  · by_cases hc : c = quoteC <;>
      simp [replaceQuotes, hc, String.mk, List.foldr] <;> rfl

/-- Witness for C1: both branches of the quoting rule at concrete cells. -/
theorem downloadCSV_cell_quoting_witness :
    escapeCsvCell "a,b" = "\"" ++ replaceQuotes "a,b" ++ "\"" ∧
    escapeCsvCell "x\"y" = "x\"y" :=
  ⟨(downloadCSV_cell_quoting "a,b").1 (Or.inl (by decide)),
   (downloadCSV_cell_quoting "x\"y").2.1 (by decide)⟩

/-- C2: the CSV of `downloadCSV` consists of a header row whose cells are
the field labels in catalog order (`|F|` of them), followed by one data
row of `|F|` cells per record in store order; a field id absent from a
record's data yields the empty-string cell. -/
theorem downloadCSV_shape (F : List Question) (R : List SurveyRecord) :
    headers F = F.map (fun q => q.label) ∧
    (headers F).length = F.length ∧
    (∀ r : SurveyRecord, (recordCells F r).length = F.length) ∧
    csvContent F R =
      String.intercalate "\n"
        (String.intercalate "," (headers F) ::
          R.map (fun r => String.intercalate "," (recordCells F r))) ∧
    (∀ (r : SurveyRecord) (q : Question), getField r.data q.id = none →
      escapeCsvCell (getFieldD r.data q.id) = "") := by
  refine ⟨rfl, by simp [headers], fun r => by simp [recordCells], rfl,
    fun r q hq => ?_⟩
  simp only [getFieldD, hq, Option.getD_none]
  rfl

/-- Witness for C2: the absent-field conjunct at a concrete record. -/
theorem downloadCSV_shape_witness :
    escapeCsvCell (getFieldD [("patient_id", "007")] "comment") = "" :=
  (downloadCSV_shape QUESTIONS [⟨1, "t", [("patient_id", "007")]⟩]).2.2.2.2
    ⟨1, "t", [("patient_id", "007")]⟩
    ⟨"comment", "その他コメント", "textarea", [], none⟩ (by decide)

/-- C3 counterexample: on the response text consisting of two JSON
objects, the claim predicts the parse of the first balanced brace
substring (a non-null object), but the code's greedy match spans from the
first opening brace to the last closing brace, fails to parse, and
returns null. -/
theorem structured_extraction_counterexample :
    structuredFromText "\x7b\"a\":1\x7d \x7b\"b\":2\x7d" = none ∧
    claimedStructured "\x7b\"a\":1\x7d \x7b\"b\":2\x7d" =
      some (Json.obj [("a", Json.num "1")]) ∧
    (none : Option Json) ≠ some (Json.obj [("a", Json.num "1")]) :=
  ⟨rfl, rfl, fun h => Option.noConfusion h⟩

/-- C3 (amended): structured recognition extracts the substring from the
first opening brace to the last closing brace of the response text (when
the former precedes the latter) and parses it as JSON; when no such
substring exists, or parsing fails, the result is null. -/
theorem structured_extraction_behavior (text : String) :
    (extractJsonCandidate text = none →
      (¬ ∃ i j : Nat, i < j ∧ text.toList[i]? = some lbraceC ∧
        text.toList[j]? = some rbraceC) ∧
      structuredFromText text = none) ∧
    (∀ s : String, extractJsonCandidate text = some s →
      (∃ i j : Nat, i < j ∧
        text.toList[i]? = some lbraceC ∧
        (∀ k : Nat, k < i → text.toList[k]? ≠ some lbraceC) ∧
        text.toList[j]? = some rbraceC ∧
        (∀ k : Nat, j < k → text.toList[k]? ≠ some rbraceC) ∧
        s = String.mk ((text.toList.drop i).take (j - i + 1))) ∧
      structuredFromText text = jsonParse s) := by
  constructor
  · intro hnone
    constructor
    · rintro ⟨i, j, hij, hi, hj⟩
      rw [extractJsonCandidate] at hnone
      cases hf : firstIdx lbraceC text.toList with
      | none => exact firstIdx_eq_none hf i hi
      | some i0 =>
        cases hl : lastIdx rbraceC text.toList with
        | none => exact lastIdx_eq_none hl j hj
        | some j0 =>
          rw [hf, hl] at hnone
          simp only at hnone
          split at hnone
          · exact Option.noConfusion hnone
          · rename_i hlt
            obtain ⟨_, hmin⟩ := firstIdx_eq_some hf
            obtain ⟨_, hmax⟩ := lastIdx_eq_some hl
            have hi0 : i0 ≤ i := by
              by_contra hcon
              exact hmin i (by omega) hi
            have hj0 : j ≤ j0 := by
              by_contra hcon
              exact hmax j (by omega) hj
            omega
    · rw [structuredFromText, hnone]
      rfl
  · intro s hs
    constructor
    · rw [extractJsonCandidate] at hs
      cases hf : firstIdx lbraceC text.toList with
      | none => rw [hf] at hs; exact absurd hs (by simp)
      | some i0 =>
        cases hl : lastIdx rbraceC text.toList with
        | none => rw [hf, hl] at hs; exact absurd hs (by simp)
        | some j0 =>
          rw [hf, hl] at hs
          simp only at hs
          split at hs
          · rename_i hlt
            obtain ⟨hi1, hi2⟩ := firstIdx_eq_some hf
            obtain ⟨hj1, hj2⟩ := lastIdx_eq_some hl
            cases hs
            exact ⟨i0, j0, hlt, hi1, hi2, hj1, hj2, rfl⟩
          · exact absurd hs (by simp)
    · rw [structuredFromText, hs]
      rfl

/-- Witness for C3 (amended): both implications discharged at concrete
response texts. -/
theorem structured_extraction_behavior_witness :
    structuredFromText "no json here" = none ∧
    structuredFromText "\x7b\"a\":1\x7d" = jsonParse "\x7b\"a\":1\x7d" :=
  ⟨((structured_extraction_behavior "no json here").1 rfl).2,
   ((structured_extraction_behavior "\x7b\"a\":1\x7d").2 "\x7b\"a\":1\x7d" rfl).2⟩

/-- C4: a successful structured recognition replaces the form state
wholesale with the returned object, independently of the prior state. -/
theorem runOCR_structured_replaces_formData (s : AppState) (d : FormData) :
    (applyStructuredResult (some d) s).formData = d ∧
    ∀ s2 : AppState, (applyStructuredResult (some d) s2).formData =
      (applyStructuredResult (some d) s).formData :=
  ⟨rfl, fun _ => rfl⟩

/-- C5: a form-state key that matches no catalog field id is ignored both
by the form rendering and by the CSV export: setting such a key changes
neither the rendered (label, value) pairs nor any record's CSV cells. -/
theorem formData_unknown_key_ignored (d : FormData) (k v : String)
    (hk : k ∉ QUESTIONS.map (fun q => q.id)) :
    renderForm QUESTIONS (setField d k v) = renderForm QUESTIONS d ∧
    ∀ (rid : Nat) (ts : String),
      recordCells QUESTIONS ⟨rid, ts, setField d k v⟩ =
        recordCells QUESTIONS ⟨rid, ts, d⟩ := by
  have hne : ∀ q ∈ QUESTIONS, q.id ≠ k := by
    intro q hq hEq
    exact hk (List.mem_map.mpr ⟨q, hq, hEq⟩)
  constructor
  · apply List.map_congr_left
    intro q hq
    rw [getFieldD, getFieldD, getField_setField_ne d k v q.id (hne q hq)]
  · intro rid ts
    apply List.map_congr_left
    intro q hq
    simp only
    rw [getFieldD, getFieldD, getField_setField_ne d k v q.id (hne q hq)]

/-- Witness for C5: the unknown key `foo` at a concrete form state. -/
theorem formData_unknown_key_ignored_witness :
    renderForm QUESTIONS (setField [] "foo" "bar") = renderForm QUESTIONS [] :=
  (formData_unknown_key_ignored [] "foo" "bar" (by decide)).1

/-- C6: `addResult` appends a fresh-id snapshot at the end of the record
store without touching existing entries, and `onDeleteResult` of that
fresh id restores the store exactly. -/
theorem addResult_onDeleteResult_roundtrip (s : AppState) (newId : Nat)
    (ts : String) (h : newId ∉ s.results.map (fun r => r.id)) :
    (addResult newId ts s).results = s.results ++ [⟨newId, ts, s.formData⟩] ∧
    (onDeleteResult newId (addResult newId ts s)).results = s.results := by
  refine ⟨rfl, ?_⟩
  show (s.results ++ ([⟨newId, ts, s.formData⟩] : List SurveyRecord)).filter
      (fun r => r.id != newId) = s.results
  rw [List.filter_append]
  have h1 : s.results.filter (fun r => r.id != newId) = s.results := by
    apply List.filter_eq_self.mpr
    intro r hr
    simp only [bne_iff_ne, ne_eq]
    intro hEq
    exact h (List.mem_map.mpr ⟨r, hr, hEq⟩)
  have h2 : ([⟨newId, ts, s.formData⟩] : List SurveyRecord).filter
      (fun r => r.id != newId) = [] := by simp
  rw [h1, h2, List.append_nil]

/-- Witness for C6: commit-then-delete at a concrete store and form. -/
theorem addResult_onDeleteResult_roundtrip_witness :
    (onDeleteResult 2 (addResult 2 "t2"
      ⟨[("gender", "男")], "", [⟨1, "t1", []⟩], none, none, "image"⟩)).results =
      [⟨1, "t1", []⟩] :=
  (addResult_onDeleteResult_roundtrip
    ⟨[("gender", "男")], "", [⟨1, "t1", []⟩], none, none, "image"⟩
    2 "t2" (by decide)).2

/-- C7: the record store holds value snapshots: after a commit, later
form-state mutations (field edit, confirmed clear, structured load, and
the structured soft failure) leave the stored records unchanged. -/
theorem committed_snapshot_immutable (s : AppState) (newId : Nat)
    (ts i v : String) (d : FormData) :
    (handleInputChange i v (addResult newId ts s)).results =
      (addResult newId ts s).results ∧
    (clearForm (addResult newId ts s)).results =
      (addResult newId ts s).results ∧
    (applyStructuredResult (some d) (addResult newId ts s)).results =
      (addResult newId ts s).results ∧
    (applyStructuredResult none (addResult newId ts s)).results =
      (addResult newId ts s).results :=
  ⟨rfl, rfl, rfl, rfl⟩

/-- C8: a null structured result is a soft failure: the warning
recommending the text-mode fallback is written to the OCR text, and the
form state and record store are unchanged. -/
theorem runOCR_structured_soft_failure (s : AppState) :
    (applyStructuredResult none s).formData = s.formData ∧
    (applyStructuredResult none s).ocrText = structFailText ∧
    (applyStructuredResult none s).results = s.results :=
  ⟨rfl, rfl, rfl⟩

/-- C9: `changePage` with a page number below 1 or above the total page
count is a no-op: the whole preview state, in particular the current page
and the current bitmap, is unchanged. -/
theorem changePage_out_of_range_noop (render : Int → String)
    (s : PreviewState) (n : Int) (h : n < 1 ∨ n > s.totalPages) :
    changePage render n s = s := by
  have hc : n < 1 ∨ n > s.totalPages ∨ s.pdfFile = none := by tauto
  rw [changePage, if_pos hc]

/-- Witness for C9: page 0 on a three-page document. -/
theorem changePage_out_of_range_noop_witness :
    changePage (fun _ => "") 0 ⟨1, 3, some "doc", some "bmp"⟩ =
      ⟨1, 3, some "doc", some "bmp"⟩ :=
  changePage_out_of_range_noop (fun _ => "") ⟨1, 3, some "doc", some "bmp"⟩ 0
    (Or.inl (by decide))

/-- C10: `handleInputChange (i, v)` sets field `i` to `v` and leaves the
value of every other field id unchanged. -/
theorem handleInputChange_frame (s : AppState) (i v j : String)
    (hj : j ≠ i) :
    getField (handleInputChange i v s).formData i = some v ∧
    getField (handleInputChange i v s).formData j = getField s.formData j :=
  ⟨getField_setField_self s.formData i v,
   getField_setField_ne s.formData i v j hj⟩

/-- Witness for C10: editing `height` leaves `gender` untouched. -/
theorem handleInputChange_frame_witness :
    getField (handleInputChange "height" "170"
      ⟨[("gender", "男")], "", [], none, none, "image"⟩).formData "gender" =
      getField [("gender", "男")] "gender" :=
  (handleInputChange_frame ⟨[("gender", "男")], "", [], none, none, "image"⟩
    "height" "170" "gender" (by decide)).2

end ToukaAssist
